import Mathlib

/-!
Verification of the Vex TypeScript SDK delivery and session-state layer.

Each section embeds one source module as executable Lean definitions and
proves the specified properties about it:

* `src/utils.ts` — wire key-casing conversion (`toSnakeCase` / `toCamelCase`);
  strings are modelled as lists of UTF-16 code units (`List Nat`, 95 = `_`,
  65–90 = `A`–`Z`, 97–122 = `a`–`z`), matching the ASCII-only regexes
  `/[A-Z]/g` and `/_([a-z])/g` of the source.
* `src/transport/async.ts` — `AsyncTransport.enqueue` / `flush`: bounded
  buffer, drop counting, retry loop, client-error drop, requeue on
  exhaustion.  The three `fetch` outcomes of a flush are supplied by an
  oracle `Nat → Attempt`.
* `src/transport/sync.ts` — `SyncTransport.verify`: the retry loop with the
  `VerificationError` rethrow, modelled with explicit fuel exactly as the
  `for` loop with `maxRetries = 3` runs.
* `src/models.ts` / `src/trace.ts` — `createStepRecord`, `TraceContext.step`,
  and `buildEvent`, including the reference sharing of the context's `steps`
  array and `metadata` object, modelled with an explicit store.
* `src/session.ts` — `Session.trace`: sequence counter, history window
  (JS `slice(-w)` semantics, including `slice(-0)` returning the whole
  array), and exception propagation.
* `src/vex.ts` — `Vex.processEvent` sync-mode dispatch: block / flag / fail-open.
-/

/-! ## Wire casing conversion (`src/utils.ts`) -/

/-- Embeds `camelToSnake` from `src/utils.ts`: `str.replace(/[A-Z]/g, l => '_' + l.toLowerCase())`.
Characters are UTF-16 code units; 65–90 are `A`–`Z`, adding 32 lower-cases them,
95 is `_`. -/
def camelToSnake : List Nat → List Nat
  | [] => []
  | c :: cs =>
    if 65 ≤ c ∧ c ≤ 90 then 95 :: (c + 32) :: camelToSnake cs
    else c :: camelToSnake cs

/-- Embeds `snakeToCamel` from `src/utils.ts`: `str.replace(/_([a-z])/g, (_, l) => l.toUpperCase())`.
The regex scans left to right without overlap: an underscore followed by a
lowercase letter (97–122) is replaced by the upper-cased letter. -/
def snakeToCamel : List Nat → List Nat
  | [] => []
  | [c] => [c]
  | c :: d :: cs =>
    if c = 95 ∧ 97 ≤ d ∧ d ≤ 122 then (d - 32) :: snakeToCamel cs
    else c :: snakeToCamel (d :: cs)

/-- JSON-like values manipulated by `toSnakeCase` / `toCamelCase`: primitives
are returned unchanged, arrays are mapped over, and objects have their keys
rewritten (entries in insertion order, as `Object.entries` yields them). -/
inductive Json where
  | str (s : List Nat) : Json
  | num (n : Int) : Json
  | bool (b : Bool) : Json
  | null : Json
  | arr (xs : List Json) : Json
  | obj (fields : List (List Nat × Json)) : Json

mutual
/-- Embeds `toSnakeCase` from `src/utils.ts`: rewrites every object key with
`camelToSnake`, recursively through nested objects and arrays. -/
def toSnakeCase : Json → Json
  | .str s => .str s
  | .num n => .num n
  | .bool b => .bool b
  | .null => .null
  | .arr xs => .arr (toSnakeCaseList xs)
  | .obj fields => .obj (toSnakeCaseObj fields)

/-- The `obj.map(toSnakeCase)` branch on an array. -/
def toSnakeCaseList : List Json → List Json
  | [] => []
  | x :: xs => toSnakeCase x :: toSnakeCaseList xs

/-- The `Object.entries` loop of `toSnakeCase`. -/
def toSnakeCaseObj : List (List Nat × Json) → List (List Nat × Json)
  | [] => []
  | (k, v) :: rest => (camelToSnake k, toSnakeCase v) :: toSnakeCaseObj rest
end

mutual
/-- Embeds `toCamelCase` from `src/utils.ts`: rewrites every object key with
`snakeToCamel`, recursively through nested objects and arrays. -/
def toCamelCase : Json → Json
  | .str s => .str s
  | .num n => .num n
  | .bool b => .bool b
  | .null => .null
  | .arr xs => .arr (toCamelCaseList xs)
  | .obj fields => .obj (toCamelCaseObj fields)

/-- The `obj.map(toCamelCase)` branch on an array. -/
def toCamelCaseList : List Json → List Json
  | [] => []
  | x :: xs => toCamelCase x :: toCamelCaseList xs

/-- The `Object.entries` loop of `toCamelCase`. -/
def toCamelCaseObj : List (List Nat × Json) → List (List Nat × Json)
  | [] => []
  | (k, v) :: rest => (snakeToCamel k, toCamelCase v) :: toCamelCaseObj rest
end

mutual
/-- A mapping has non-colliding camel/snake keys when no key contains an
underscore (code unit 95), recursively through nested objects and arrays:
such keys are pure camel-case and survive the wire round trip. -/
def noUnderscoreKeys : Json → Bool
  | .str _ => true
  | .num _ => true
  | .bool _ => true
  | .null => true
  | .arr xs => noUnderscoreKeysList xs
  | .obj fields => noUnderscoreKeysObj fields

/-- Extends `noUnderscoreKeys` over the elements of an array. -/
def noUnderscoreKeysList : List Json → Bool
  | [] => true
  | x :: xs => noUnderscoreKeys x && noUnderscoreKeysList xs

/-- Extends `noUnderscoreKeys` over the entries of an object. -/
def noUnderscoreKeysObj : List (List Nat × Json) → Bool
  | [] => true
  | (k, v) :: rest => k.all (fun c => c ≠ 95) && noUnderscoreKeys v && noUnderscoreKeysObj rest
end

/-- Structural induction for `Json` with inductive hypotheses for array
elements and object values. -/
theorem Json.strongInd (P : Json → Prop)
    (h1 : ∀ s, P (.str s)) (h2 : ∀ n, P (.num n)) (h3 : ∀ b, P (.bool b)) (h4 : P .null)
    (h5 : ∀ xs, (∀ x ∈ xs, P x) → P (.arr xs))
    (h6 : ∀ fs, (∀ kv ∈ fs, P kv.2) → P (.obj fs)) : ∀ j, P j
  | .str s => h1 s
  | .num n => h2 n
  | .bool b => h3 b
  | .null => h4
  | .arr xs => h5 xs (fun x hx => Json.strongInd P h1 h2 h3 h4 h5 h6 x)
  | .obj fs => h6 fs (fun kv hkv => Json.strongInd P h1 h2 h3 h4 h5 h6 kv.2)
termination_by j => sizeOf j
decreasing_by
  · have := List.sizeOf_lt_of_mem hx
    simp only [Json.arr.sizeOf_spec]
    omega
  · have h := List.sizeOf_lt_of_mem hkv
    have h2 : sizeOf kv.2 < sizeOf kv := by
      obtain ⟨a, b⟩ := kv
      simp
    simp only [Json.obj.sizeOf_spec]
    omega

theorem snakeToCamel_cons_us (d : Nat) (cs : List Nat) (h1 : 97 ≤ d) (h2 : d ≤ 122) :
    snakeToCamel (95 :: d :: cs) = (d - 32) :: snakeToCamel cs := by
  simp [snakeToCamel, h1, h2]

theorem snakeToCamel_cons_ne (c : Nat) (l : List Nat) (h : c ≠ 95) :
    snakeToCamel (c :: l) = c :: snakeToCamel l := by
  cases l with
  | nil => rfl
  | cons d ds => simp [snakeToCamel, h]

/-- Key-level round trip: an underscore-free key is unchanged by
`camelToSnake` followed by `snakeToCamel`. -/
theorem snakeToCamel_camelToSnake (l : List Nat) (h : 95 ∉ l) :
    snakeToCamel (camelToSnake l) = l := by
  induction l with
  | nil => rfl
  | cons c cs ih =>
    have hc : c ≠ 95 := by intro hh; exact h (hh ▸ List.mem_cons_self c cs)
    have hcs : 95 ∉ cs := fun hm => h (List.mem_cons_of_mem _ hm)
    by_cases hup : 65 ≤ c ∧ c ≤ 90
    · rw [camelToSnake, if_pos hup, snakeToCamel_cons_us (c + 32) _ (by omega) (by omega)]
      have he : c + 32 - 32 = c := by omega
      rw [he, ih hcs]
    · rw [camelToSnake, if_neg hup, snakeToCamel_cons_ne c _ hc, ih hcs]

theorem toCamel_toSnake_list (xs : List Json)
    (ih : ∀ x ∈ xs, noUnderscoreKeys x = true → toCamelCase (toSnakeCase x) = x)
    (h : noUnderscoreKeysList xs = true) :
    toCamelCaseList (toSnakeCaseList xs) = xs := by
  induction xs with
  | nil => rfl
  | cons x xt iht =>
    rw [noUnderscoreKeysList, Bool.and_eq_true] at h
    rw [toSnakeCaseList, toCamelCaseList, ih x (List.mem_cons_self x xt) h.1,
      iht (fun y hy hky => ih y (List.mem_cons_of_mem _ hy) hky) h.2]

theorem toCamel_toSnake_obj (fs : List (List Nat × Json))
    (ih : ∀ kv ∈ fs, noUnderscoreKeys kv.2 = true → toCamelCase (toSnakeCase kv.2) = kv.2)
    (h : noUnderscoreKeysObj fs = true) :
    toCamelCaseObj (toSnakeCaseObj fs) = fs := by
  induction fs with
  | nil => rfl
  | cons kv rest iht =>
    obtain ⟨k, v⟩ := kv
    rw [noUnderscoreKeysObj, Bool.and_eq_true, Bool.and_eq_true] at h
    have hk : 95 ∉ k := by
      intro hm
      have := List.all_eq_true.mp h.1.1 95 hm
      simp at this
    rw [toSnakeCaseObj, toCamelCaseObj, snakeToCamel_camelToSnake k hk,
      ih ⟨k, v⟩ (List.mem_cons_self _ rest) h.1.2,
      iht (fun y hy hky => ih y (List.mem_cons_of_mem _ hy) hky) h.2]

/-- C9: the wire-casing conversion is its own inverse: for every JSON-like
mapping (recursively through nested objects and arrays) whose keys are
non-colliding camel/snake pairs (no key contains an underscore), applying
`toSnakeCase` and then `toCamelCase` yields the original keys and values. -/
theorem wire_casing_roundtrip (j : Json) (h : noUnderscoreKeys j = true) :
    toCamelCase (toSnakeCase j) = j := by
  induction j using Json.strongInd with
  | h1 s => rfl
  | h2 n => rfl
  | h3 b => rfl
  | h4 => rfl
  | h5 xs ih =>
    rw [noUnderscoreKeys] at h
    rw [toSnakeCase, toCamelCase, toCamel_toSnake_list xs ih h]
  | h6 fs ih =>
    rw [noUnderscoreKeys] at h
    rw [toSnakeCase, toCamelCase, toCamel_toSnake_obj fs ih h]

/-- A concrete event-like mapping for the round-trip witness:
`{executionId: "e1", agentId: null, steps: [{stepName: 7}]}` with keys given
as code-unit lists (`executionId` = camel-case, no underscores). -/
def sampleWireEvent : Json :=
  .obj [([101, 120, 101, 99, 117, 116, 105, 111, 110, 73, 100], .str [101, 49]),
        ([97, 103, 101, 110, 116, 73, 100], .null),
        ([115, 116, 101, 112, 115], .arr [.obj [([115, 116, 101, 112, 78, 97, 109, 101], .num 7)]])]

/-- Witness for C9 at `sampleWireEvent`. -/
theorem wire_casing_roundtrip_witness :
    noUnderscoreKeys sampleWireEvent = true ∧
      toCamelCase (toSnakeCase sampleWireEvent) = sampleWireEvent :=
  ⟨by rfl, wire_casing_roundtrip sampleWireEvent (by rfl)⟩

/-! ## Async transport (`src/transport/async.ts`) -/

/-- The mutable state of an `AsyncTransport`: the bounded event buffer and the
dropped-event counter.  The event type is a parameter; the transport never
inspects events. -/
structure TransportState (α : Type) where
  buffer : List α
  droppedCount : Nat

/-- Embeds `AsyncTransport.enqueue`: at capacity the event is discarded and the drop
counter incremented, with a rate-limited warning (`droppedCount % 100 === 1`);
otherwise the event is appended at the tail.  Returns the new state and
whether the warning was emitted. -/
def enqueue {α : Type} (maxBufferSize : Nat) (s : TransportState α) (e : α) :
    TransportState α × Bool :=
  if s.buffer.length ≥ maxBufferSize then
    ({ s with droppedCount := s.droppedCount + 1 }, (s.droppedCount + 1) % 100 == 1)
  else
    ({ s with buffer := s.buffer ++ [e] }, false)

/-- Outcome of one `fetch` of a flush attempt: an HTTP response with a status,
or a thrown transport/timeout failure (an abort is thrown and caught the same
way as a network error). -/
inductive Attempt where
  | response (status : Nat) : Attempt
  | netFail : Attempt

/-- Tests `response.ok` per the fetch specification: status in the range 200–299. -/
def respOk (status : Nat) : Bool := 200 ≤ status && status < 300

/-- How a flush ends: delivered (2xx), dropped as a permanent client error
(non-2xx below 500), or all retries exhausted. -/
inductive FlushVerdict where
  | delivered : FlushVerdict
  | clientError (status : Nat) : FlushVerdict
  | exhausted : FlushVerdict

/-- The retry `for` loop of `AsyncTransport.flush`, with the outcome of the
i-th `fetch` given by `oracle i` and `fuel` counting the remaining attempts:
2xx returns, non-2xx below 500 drops the batch, and a 5xx or a thrown
failure falls through to the next attempt. -/
def flushLoop (oracle : Nat → Attempt) : Nat → Nat → FlushVerdict
  | _, 0 => .exhausted
  | attempt, fuel + 1 =>
    match oracle attempt with
    | .response status =>
      if respOk status then .delivered
      else if status < 500 then .clientError status
      else flushLoop oracle (attempt + 1) fuel
    | .netFail => flushLoop oracle (attempt + 1) fuel

/-- The verdict of one `flush` call: the loop runs with `maxRetries = 3`. -/
def flushVerdict (oracle : Nat → Attempt) : FlushVerdict :=
  flushLoop oracle 0 3

/-- Number of `fetch` calls the flush loop makes. -/
def flushAttemptsLoop (oracle : Nat → Attempt) : Nat → Nat → Nat
  | _, 0 => 0
  | attempt, fuel + 1 =>
    match oracle attempt with
    | .response status =>
      if respOk status then 1
      else if status < 500 then 1
      else 1 + flushAttemptsLoop oracle (attempt + 1) fuel
    | .netFail => 1 + flushAttemptsLoop oracle (attempt + 1) fuel

/-- Number of `fetch` calls of one `flush` call. -/
def flushAttempts (oracle : Nat → Attempt) : Nat :=
  flushAttemptsLoop oracle 0 3

/-- The tail of `AsyncTransport.flush` after the loop: on success or client
error the batch is gone; on exhaustion `available = max(0, maxBufferSize -
buffer.length)` events of the batch are put back at the head of the current
buffer and the overflow is added to the dropped counter.  `bufferAtEnd` is
`this.buffer` at that moment — the events enqueued while the flush was in
flight. -/
def flushFinish {α : Type} (maxBufferSize : Nat) (batch bufferAtEnd : List α)
    (dropped : Nat) : FlushVerdict → TransportState α
  | .delivered => ⟨bufferAtEnd, dropped⟩
  | .clientError _ => ⟨bufferAtEnd, dropped⟩
  | .exhausted =>
    let available := maxBufferSize - bufferAtEnd.length
    let eventsToRetry := batch.take available
    let overflow := batch.length - eventsToRetry.length
    ⟨eventsToRetry ++ bufferAtEnd, dropped + overflow⟩

/-- Embeds `AsyncTransport.flush` on a transport state: no-op when the buffer is
empty; otherwise the buffer is snapshotted and cleared, the loop runs, and
the post-state is assembled.  `enqueuedDuring` is the content of the fresh
buffer when the loop finishes. -/
def flush {α : Type} (maxBufferSize : Nat) (s : TransportState α)
    (oracle : Nat → Attempt) (enqueuedDuring : List α) : TransportState α :=
  if s.buffer.isEmpty then s
  else flushFinish maxBufferSize s.buffer enqueuedDuring s.droppedCount (flushVerdict oracle)

/-- An attempt outcome the flush loop retries: a 5xx response or a thrown
transport/timeout failure. -/
def retryable : Attempt → Prop
  | .response status => 500 ≤ status
  | .netFail => True

theorem flushLoop_exhausted (oracle : Nat → Attempt) (attempt fuel : Nat)
    (h : ∀ i, attempt ≤ i → i < attempt + fuel → retryable (oracle i)) :
    flushLoop oracle attempt fuel = .exhausted := by
  induction fuel generalizing attempt with
  | zero => rfl
  | succ n ih =>
    rw [flushLoop]
    have hr := h attempt (le_refl _) (by omega)
    cases ho : oracle attempt with
    | response status =>
      rw [ho] at hr
      simp only [retryable] at hr
      have hnotlt : ¬ status < 300 := by omega
      have h1 : respOk status = false := by simp [respOk, hnotlt]
      dsimp only
      rw [h1, if_neg (by simp), if_neg (show ¬ status < 500 by omega)]
      exact ih (attempt + 1) (fun i hi1 hi2 => h i (by omega) (by omega))
    | netFail =>
      dsimp only
      exact ih (attempt + 1) (fun i hi1 hi2 => h i (by omega) (by omega))

theorem flushAttemptsLoop_all_retry (oracle : Nat → Attempt) (attempt fuel : Nat)
    (h : ∀ i, attempt ≤ i → i < attempt + fuel → retryable (oracle i)) :
    flushAttemptsLoop oracle attempt fuel = fuel := by
  induction fuel generalizing attempt with
  | zero => rfl
  | succ n ih =>
    rw [flushAttemptsLoop]
    have hr := h attempt (le_refl _) (by omega)
    cases ho : oracle attempt with
    | response status =>
      rw [ho] at hr
      simp only [retryable] at hr
      have hnotlt : ¬ status < 300 := by omega
      have h1 : respOk status = false := by simp [respOk, hnotlt]
      dsimp only
      rw [h1, if_neg (by simp), if_neg (show ¬ status < 500 by omega),
        ih (attempt + 1) (fun i hi1 hi2 => h i (by omega) (by omega))]
      omega
    | netFail =>
      dsimp only
      rw [ih (attempt + 1) (fun i hi1 hi2 => h i (by omega) (by omega))]
      omega

/-- C1: when all 3 delivery attempts of `flush` fail retryably (5xx or
transport/timeout failure), exactly 3 attempts are made and the unshipped
batch is re-inserted at the head of the buffer in its original order, ahead
of the events enqueued during the flush, truncated to the remaining capacity
`maxBufferSize - buffer.length`; each truncated-away event increments the
dropped counter. -/
theorem flush_requeues_after_exhaustion {α : Type} (maxBufferSize : Nat)
    (batch enqueuedDuring : List α) (dropped : Nat) (oracle : Nat → Attempt)
    (hb : batch ≠ []) (hr : ∀ i, i < 3 → retryable (oracle i)) :
    flush maxBufferSize ⟨batch, dropped⟩ oracle enqueuedDuring =
      ⟨batch.take (maxBufferSize - enqueuedDuring.length) ++ enqueuedDuring,
        dropped + (batch.length - min (maxBufferSize - enqueuedDuring.length) batch.length)⟩ ∧
    flushAttempts oracle = 3 := by
  constructor
  · have hv : flushVerdict oracle = .exhausted :=
      flushLoop_exhausted oracle 0 3 (fun i h1 h2 => hr i (by omega))
    rw [flush, if_neg (by simp [hb])]
    dsimp only
    rw [hv, flushFinish]
    simp only [List.length_take]
  · exact flushAttemptsLoop_all_retry oracle 0 3 (fun i h1 h2 => hr i (by omega))

/-- Witness for C1: capacity 3, a 2-event batch, 2 events enqueued during the
flush, every attempt a network failure: one batch event is requeued at the
head, the other is dropped. -/
theorem flush_requeues_after_exhaustion_witness :
    flush 3 (⟨[1, 2], 0⟩ : TransportState Nat) (fun _ => .netFail) [9, 8] = ⟨[1, 9, 8], 1⟩ ∧
    flushAttempts (fun _ => .netFail) = 3 := by
  have h := flush_requeues_after_exhaustion 3 [1, 2] [9, 8] 0 (fun _ => .netFail)
    (by decide) (fun i _ => trivial)
  exact ⟨h.1.trans (by rfl), h.2⟩

theorem flushLoop_client_error (oracle : Nat → Attempt) (status : Nat)
    (h2xx : ¬ (200 ≤ status ∧ status < 300)) (h5 : status < 500) :
    ∀ (k attempt fuel : Nat), k < fuel →
      (∀ i, attempt ≤ i → i < attempt + k → retryable (oracle i)) →
      oracle (attempt + k) = .response status →
      flushLoop oracle attempt fuel = .clientError status ∧
      flushAttemptsLoop oracle attempt fuel = k + 1 := by
  intro k
  induction k with
  | zero =>
    intro attempt fuel hk hr ho
    cases fuel with
    | zero => omega
    | succ m =>
      rw [Nat.add_zero] at ho
      have hok : respOk status = false := by
        simp only [respOk, Bool.and_eq_true, decide_eq_true_eq, ← Bool.decide_and,
          decide_eq_false_iff_not]
        exact h2xx
      constructor
      · rw [flushLoop, ho]
        dsimp only
        rw [hok, if_neg (by simp), if_pos h5]
      · rw [flushAttemptsLoop, ho]
        dsimp only
        rw [hok, if_neg (by simp), if_pos h5]
  | succ k ih =>
    intro attempt fuel hk hr ho
    cases fuel with
    | zero => omega
    | succ m =>
      have hra := hr attempt (le_refl _) (by omega)
      have ho2 : oracle (attempt + 1 + k) = .response status := by
        rw [show attempt + 1 + k = attempt + (k + 1) by omega]
        exact ho
      have hr2 : ∀ i, attempt + 1 ≤ i → i < attempt + 1 + k → retryable (oracle i) :=
        fun i h1 h2 => hr i (by omega) (by omega)
      have hrec := ih (attempt + 1) m (by omega) hr2 ho2
      cases hoa : oracle attempt with
      | response s =>
        rw [hoa] at hra
        simp only [retryable] at hra
        have hnotlt : ¬ s < 300 := by omega
        have h1 : respOk s = false := by simp [respOk, hnotlt]
        constructor
        · rw [flushLoop, hoa]
          dsimp only
          rw [h1, if_neg (by simp), if_neg (show ¬ s < 500 by omega)]
          exact hrec.1
        · rw [flushAttemptsLoop, hoa]
          dsimp only
          rw [h1, if_neg (by simp), if_neg (show ¬ s < 500 by omega), hrec.2]
          omega
      | netFail =>
        constructor
        · rw [flushLoop, hoa]
          dsimp only
          exact hrec.1
        · rw [flushAttemptsLoop, hoa]
          dsimp only
          rw [hrec.2]
          omega

/-- C6: a non-2xx response below 500 received on any of the 3 attempts
(after any number of retryable 5xx/transport failures before it)
permanently drops the batch with no further attempt: exactly that many
requests are made, the post-flush buffer is exactly the events enqueued
during the flush, and no batch event survives into it. -/
theorem flush_client_error_drops_batch {α : Type} (maxBufferSize : Nat)
    (batch enqueuedDuring : List α) (dropped : Nat) (oracle : Nat → Attempt)
    (j status : Nat) (hb : batch ≠ []) (hj : j < 3)
    (hr : ∀ i, i < j → retryable (oracle i))
    (ho : oracle j = .response status)
    (h2xx : ¬ (200 ≤ status ∧ status < 300)) (h5 : status < 500) :
    flush maxBufferSize ⟨batch, dropped⟩ oracle enqueuedDuring = ⟨enqueuedDuring, dropped⟩ ∧
    flushAttempts oracle = j + 1 ∧
    ∀ e ∈ batch, e ∉ enqueuedDuring →
      e ∉ (flush maxBufferSize ⟨batch, dropped⟩ oracle enqueuedDuring).buffer := by
  have hgen := flushLoop_client_error oracle status h2xx h5 j 0 3 hj
    (fun i h1 h2 => hr i (by omega)) (by rw [Nat.zero_add]; exact ho)
  have hmain : flush maxBufferSize ⟨batch, dropped⟩ oracle enqueuedDuring =
      ⟨enqueuedDuring, dropped⟩ := by
    rw [flush, if_neg (by simp [hb])]
    dsimp only
    rw [(show flushVerdict oracle = .clientError status from hgen.1), flushFinish]
  refine ⟨hmain, hgen.2, ?_⟩
  intro e _ hnot
  rw [hmain]
  exact hnot

/-- Witness for C6: a network failure on attempt 1, then a 404 on attempt 2 —
the batch is dropped after exactly 2 requests, leaving only the event
enqueued during the flush. -/
theorem flush_client_error_drops_batch_witness :
    flush 10 (⟨[1, 2], 5⟩ : TransportState Nat)
        (fun n => if n = 0 then Attempt.netFail else .response 404) [7] = ⟨[7], 5⟩ ∧
    flushAttempts (fun n => if n = 0 then Attempt.netFail else .response 404) = 1 + 1 ∧
    (1 : Nat) ∉ (flush 10 (⟨[1, 2], 5⟩ : TransportState Nat)
        (fun n => if n = 0 then Attempt.netFail else .response 404) [7]).buffer := by
  have h := flush_client_error_drops_batch 10 [1, 2] [7] 5
    (fun n => if n = 0 then Attempt.netFail else .response 404) 1 404
    (by decide) (by omega)
    (fun i hi => by
      have hi0 : i = 0 := by omega
      subst hi0
      exact trivial)
    rfl (by omega) (by omega)
  exact ⟨h.1, h.2.1, h.2.2 1 (by decide) (by decide)⟩

theorem enqueue_preserves_bound {α : Type} (maxBufferSize : Nat) (s : TransportState α)
    (e : α) (h : s.buffer.length ≤ maxBufferSize) :
    ((enqueue maxBufferSize s e).1).buffer.length ≤ maxBufferSize := by
  rw [enqueue]
  by_cases hc : s.buffer.length ≥ maxBufferSize
  · rw [if_pos hc]
    exact h
  · rw [if_neg hc]
    simp only [List.length_append, List.length_cons, List.length_nil]
    omega

theorem enqueue_foldl_bound {α : Type} (maxBufferSize : Nat) (es : List α)
    (s : TransportState α) (h : s.buffer.length ≤ maxBufferSize) :
    ((es.foldl (fun s e => (enqueue maxBufferSize s e).1) s)).buffer.length ≤ maxBufferSize := by
  induction es generalizing s with
  | nil => exact h
  | cons e es ih =>
    rw [List.foldl_cons]
    exact ih _ (enqueue_preserves_bound maxBufferSize s e h)

/-- C4: `enqueue` below capacity appends at the tail without dropping or
warning; at capacity it leaves the buffer unchanged, increments the dropped
counter by one, and warns exactly when the new total drop count is ≡ 1
mod 100 (the first drop and every 100th thereafter); consequently, starting
from an empty transport, the buffer length never exceeds `maxBufferSize`. -/
theorem enqueue_spec {α : Type} (maxBufferSize : Nat) :
    (∀ (s : TransportState α) (e : α), s.buffer.length < maxBufferSize →
        enqueue maxBufferSize s e = (⟨s.buffer ++ [e], s.droppedCount⟩, false)) ∧
    (∀ (s : TransportState α) (e : α), maxBufferSize ≤ s.buffer.length →
        (enqueue maxBufferSize s e).1 = ⟨s.buffer, s.droppedCount + 1⟩ ∧
        ((enqueue maxBufferSize s e).2 = true ↔ (s.droppedCount + 1) % 100 = 1)) ∧
    (∀ es : List α,
        ((es.foldl (fun s e => (enqueue maxBufferSize s e).1) ⟨[], 0⟩)).buffer.length ≤
          maxBufferSize) := by
  refine ⟨?_, ?_, ?_⟩
  · intro s e h
    rw [enqueue, if_neg (by omega)]
  · intro s e h
    rw [enqueue, if_pos (by omega)]
    exact ⟨rfl, by simp⟩
  · intro es
    exact enqueue_foldl_bound maxBufferSize es ⟨[], 0⟩ (by simp)

/-- Witness for C4 at capacity 1: the first enqueue appends, the second is
dropped with a warning (drop count 1), and a 3-event fold stays within the
bound. -/
theorem enqueue_spec_witness :
    enqueue 1 (⟨[], 0⟩ : TransportState Nat) 5 = (⟨[5], 0⟩, false) ∧
    (enqueue 1 (⟨[5], 0⟩ : TransportState Nat) 6).1 = ⟨[5], 1⟩ ∧
    ((enqueue 1 (⟨[5], 0⟩ : TransportState Nat) 6).2 = true ↔ (0 + 1) % 100 = 1) ∧
    (([7, 8, 9] : List Nat).foldl (fun s e => (enqueue 1 s e).1) ⟨[], 0⟩).buffer.length ≤ 1 :=
  ⟨(enqueue_spec 1).1 ⟨[], 0⟩ 5 (by decide),
   ((enqueue_spec 1).2.1 ⟨[5], 0⟩ 6 (by decide)).1,
   ((enqueue_spec 1).2.1 ⟨[5], 0⟩ 6 (by decide)).2,
   (enqueue_spec 1).2.2 [7, 8, 9]⟩

/-! ## Sync transport (`src/transport/sync.ts`) -/

/-- Outcome of one `fetch` inside `SyncTransport.verify`: an HTTP response
with a status and a parsed body, or a thrown transport/timeout failure
identified by `err`. -/
inductive SyncAttempt (β : Type) where
  | response (status : Nat) (body : β) : SyncAttempt β
  | netFail (err : Nat) : SyncAttempt β

/-- How `SyncTransport.verify` ends: the camel-cased response body, a
`VerificationError` raised for a received non-2xx status, or the last
transport failure raised after all retries. -/
inductive VerifyOutcome (β : Type) where
  | ok (body : β) : VerifyOutcome β
  | verificationError (status : Nat) : VerifyOutcome β
  | transportFail (err : Nat) : VerifyOutcome β

/-- Embeds `SyncTransport.verify`, the retry loop `for (attempt = 0..2)` unrolled at
its constant `maxRetries = 3`, `baseDelay = 100`.  A non-ok response throws
`VerificationError`, which the catch block rethrows at once
(`err instanceof VerificationError`); a transport failure is remembered as
`lastError` and retried after a `baseDelay * 2 ** attempt` delay, except
after the final attempt; when the loop ends `lastError` is thrown.  Returns
(outcome, delays slept, number of fetch calls). -/
def verify {β : Type} (oracle : Nat → SyncAttempt β) : VerifyOutcome β × List Nat × Nat :=
  match oracle 0 with
  | .response status body =>
    ((if respOk status then .ok body else .verificationError status), [], 1)
  | .netFail _ =>
    match oracle 1 with
    | .response status body =>
      ((if respOk status then .ok body else .verificationError status), [100 * 2 ^ 0], 2)
    | .netFail _ =>
      match oracle 2 with
      | .response status body =>
        ((if respOk status then .ok body else .verificationError status),
          [100 * 2 ^ 0, 100 * 2 ^ 1], 3)
      | .netFail err2 => (.transportFail err2, [100 * 2 ^ 0, 100 * 2 ^ 1], 3)

/-- C2: `verify` makes up to 3 attempts with backoff delays 100ms then 200ms,
retrying only transport-level failures; a received response ends the call at
once — 2xx returns the body, non-2xx raises `VerificationError` with no
further attempt — and when all 3 attempts fail at the transport level, the
last underlying failure is raised. -/
theorem verify_retry_policy {β : Type} (oracle : Nat → SyncAttempt β) :
    (∀ status body, oracle 0 = .response status body →
        verify oracle =
          ((if respOk status then .ok body else .verificationError status), [], 1)) ∧
    (∀ e0 status body, oracle 0 = .netFail e0 → oracle 1 = .response status body →
        verify oracle =
          ((if respOk status then .ok body else .verificationError status), [100], 2)) ∧
    (∀ e0 e1 status body, oracle 0 = .netFail e0 → oracle 1 = .netFail e1 →
        oracle 2 = .response status body →
        verify oracle =
          ((if respOk status then .ok body else .verificationError status), [100, 200], 3)) ∧
    (∀ e0 e1 e2, oracle 0 = .netFail e0 → oracle 1 = .netFail e1 → oracle 2 = .netFail e2 →
        verify oracle = (.transportFail e2, [100, 200], 3)) := by
  refine ⟨?_, ?_, ?_, ?_⟩
  · intro status body h0
    rw [verify, h0]
  · intro e0 status body h0 h1
    rw [verify, h0]
    dsimp only
    rw [h1]
    rfl
  · intro e0 e1 status body h0 h1 h2
    rw [verify, h0]
    dsimp only
    rw [h1]
    dsimp only
    rw [h2]
    rfl
  · intro e0 e1 e2 h0 h1 h2
    rw [verify, h0]
    dsimp only
    rw [h1]
    dsimp only
    rw [h2]
    rfl

/-- Witness for C2: a network failure followed by a received 500 — the 500
is raised as a `VerificationError` immediately on attempt 2, with one 100ms
backoff and no third attempt (sync never retries a received status, even a
5xx). -/
theorem verify_retry_policy_witness :
    verify (fun n => if n = 0 then SyncAttempt.netFail 7 else .response 500 (42 : Nat)) =
      (.verificationError 500, [100], 2) := by
  have h := (verify_retry_policy
      (fun n => if n = 0 then SyncAttempt.netFail 7 else .response 500 (42 : Nat))).2.1
    7 500 42 rfl rfl
  rw [h]
  rfl

/-! ## Orchestrator sync dispatch (`src/vex.ts`) -/

/-- The fields of the wire response after `toCamelCase`, as
`Vex.processEvent` reads them (`?? fallback` on each).  `V` is the type of
opaque payload values (outputs, confidences, checks). -/
structure VerifyResponseM (V : Type) where
  executionId : Option String
  confidence : Option V
  action : Option String
  output : Option V
  correctionAttempts : Option (List V)
  checks : Option V
  corrected : Option Bool
  originalOutput : Option V

/-- The parts of an `ExecutionEvent` that `processEvent` reads. -/
structure EventM (V : Type) where
  executionId : String
  output : Option V

/-- The `VexResult` shape assembled by `processEvent`. -/
structure VexResultM (V : Type) where
  executionId : String
  action : String
  confidence : Option V
  output : Option V
  corrections : Option (List V)
  verification : Option V
  corrected : Bool
  originalOutput : Option V

/-- Embeds `Vex.passThroughResult`: the fail-open result — `action = pass`,
`confidence = null`, the event's output unchanged. -/
def passThroughResult {V : Type} (e : EventM V) : VexResultM V :=
  { output := e.output, confidence := none, action := "pass", corrections := none,
    executionId := e.executionId, verification := none, corrected := false,
    originalOutput := none }

/-- The `VexResult` built from a successful verify response in
`Vex.processEvent` (each field `response.x ?? fallback`). -/
def syncResult {V : Type} (e : EventM V) (r : VerifyResponseM V) : VexResultM V :=
  { output := match r.output with | some v => some v | none => e.output,
    confidence := r.confidence,
    action := r.action.getD "pass",
    corrections := r.correctionAttempts,
    executionId := r.executionId.getD e.executionId,
    verification := r.checks,
    corrected := r.corrected.getD false,
    originalOutput := r.originalOutput }

/-- How `SyncTransport.verify` ends, as seen by `processEvent`: a parsed
response, a raised `VerificationError`, or a transport failure after
retries. -/
inductive SyncVerifyOut (V : Type) where
  | ok (r : VerifyResponseM V) : SyncVerifyOut V
  | verificationError : SyncVerifyOut V
  | transportFail : SyncVerifyOut V

/-- Which warning `processEvent` logs. -/
inductive WarnKind where
  | noWarn : WarnKind
  | flagWarn : WarnKind
  | failWarn : WarnKind

/-- What a sync-mode `processEvent` call does: throws the `VexBlockError`
carrying a result, or returns a result (with the warning it logged). -/
inductive ProcessOutcome (V : Type) where
  | blockError (r : VexResultM V) : ProcessOutcome V
  | returned (r : VexResultM V) (warn : WarnKind) : ProcessOutcome V

/-- The sync-mode branch of `Vex.processEvent`: on a verify response, builds
the result and throws `VexBlockError` on `block` (rethrown by the catch
block via the `instanceof` check) or warns on `flag`; on any verify failure
(`VerificationError` or transport), warns and returns the pass-through
result — the fail-open policy. -/
def processEventSync {V : Type} (e : EventM V) (vo : SyncVerifyOut V) : ProcessOutcome V :=
  match vo with
  | .ok r =>
    let result := syncResult e r
    if result.action = "block" then .blockError result
    else if result.action = "flag" then .returned result .flagWarn
    else .returned result .noWarn
  | .verificationError => .returned (passThroughResult e) .failWarn
  | .transportFail => .returned (passThroughResult e) .failWarn

/-- C3: in sync mode, a `block` action throws a catchable block error
carrying the full result (its `action` and `confidence` included); a `flag`
action logs a warning and returns the result normally; any verification
failure returns the pass-through result (`action = pass`, `confidence =
null`, output unchanged) with a logged warning; and the only outcome that
throws is a `block` action actually returned by the verifier. -/
theorem processEvent_sync_dispatch {V : Type} (e : EventM V) :
    (∀ r : VerifyResponseM V, r.action = some "block" →
        processEventSync e (.ok r) = .blockError (syncResult e r) ∧
        (syncResult e r).action = "block" ∧
        (syncResult e r).confidence = r.confidence) ∧
    (∀ r : VerifyResponseM V, r.action = some "flag" →
        processEventSync e (.ok r) = .returned (syncResult e r) .flagWarn) ∧
    (processEventSync e .verificationError = .returned (passThroughResult e) .failWarn ∧
      processEventSync e .transportFail = .returned (passThroughResult e) .failWarn ∧
      (passThroughResult e).action = "pass" ∧
      (passThroughResult e).confidence = none ∧
      (passThroughResult e).output = e.output) ∧
    (∀ (vo : SyncVerifyOut V) (res : VexResultM V),
        processEventSync e vo = .blockError res →
        ∃ r, vo = .ok r ∧ r.action.getD "pass" = "block" ∧ res = syncResult e r) := by
  refine ⟨?_, ?_, ⟨rfl, rfl, rfl, rfl, rfl⟩, ?_⟩
  · intro r hb
    have ha : (syncResult e r).action = "block" := by
      simp [syncResult, hb]
    refine ⟨?_, ha, rfl⟩
    simp only [processEventSync]
    rw [if_pos ha]
  · intro r hf
    have ha : (syncResult e r).action = "flag" := by
      simp [syncResult, hf]
    simp only [processEventSync]
    rw [if_neg (by rw [ha]; decide), if_pos ha]
  · intro vo res h
    cases vo with
    | ok r =>
      refine ⟨r, rfl, ?_, ?_⟩
      · simp only [processEventSync] at h
        by_cases hb : (syncResult e r).action = "block"
        · rw [syncResult] at hb
          exact hb
        · rw [if_neg hb] at h
          by_cases hf : (syncResult e r).action = "flag"
          · rw [if_pos hf] at h
            exact absurd h (by simp)
          · rw [if_neg hf] at h
            exact absurd h (by simp)
      · simp only [processEventSync] at h
        by_cases hb : (syncResult e r).action = "block"
        · rw [if_pos hb] at h
          cases h
          rfl
        · rw [if_neg hb] at h
          by_cases hf : (syncResult e r).action = "flag"
          · rw [if_pos hf] at h
            exact absurd h (by simp)
          · rw [if_neg hf] at h
            exact absurd h (by simp)
    | verificationError => exact absurd h (by rw [processEventSync]; simp)
    | transportFail => exact absurd h (by rw [processEventSync]; simp)

/-- Witness for C3: a verifier response with `action = block` and confidence
payload 1 throws the block error carrying them; a missing action defaults to
`pass` and returns normally. -/
theorem processEvent_sync_dispatch_witness :
    processEventSync (⟨"e1", some 5⟩ : EventM Nat)
        (.ok ⟨none, some 1, some "block", none, none, none, none, none⟩) =
      .blockError (syncResult ⟨"e1", some 5⟩
        ⟨none, some 1, some "block", none, none, none, none, none⟩) ∧
    (syncResult (⟨"e1", some 5⟩ : EventM Nat)
        ⟨none, some 1, some "block", none, none, none, none, none⟩).confidence = some 1 ∧
    processEventSync (⟨"e1", some 5⟩ : EventM Nat) .verificationError =
      .returned (passThroughResult ⟨"e1", some 5⟩) .failWarn := by
  have h := processEvent_sync_dispatch (⟨"e1", some 5⟩ : EventM Nat)
  have hb := h.1 ⟨none, some 1, some "block", none, none, none, none, none⟩ rfl
  exact ⟨hb.1, hb.2.2, h.2.2.1.1⟩

/-! ## Session (`src/session.ts`) -/

/-- JS `arr.slice(-w)`: the last `w` elements — except that `-0 === 0`, so
`slice(-0)` is `slice(0)`, the whole array. -/
def sliceNeg {α : Type} (w : Nat) (l : List α) : List α :=
  if w = 0 then l else l.drop (l.length - w)

/-- The truncation step of `Session.trace`:
`if (history.length > windowSize) history = history.slice(-windowSize)`. -/
def truncateHistory {α : Type} (w : Nat) (l : List α) : List α :=
  if l.length > w then sliceNeg w l else l

/-- A `ConversationTurn` as `Session.trace` appends it: the turn's sequence
number, the caller's input, the recorded output, and the task. -/
structure ConversationTurnM (V : Type) where
  sequenceNumber : Nat
  input : Option V
  output : Option V
  task : Option String

/-- Per-turn data: the trace options' input and task, and the output the
callback recorded on the context (`ctx.getOutput()`). -/
structure TraceData (V : Type) where
  input : Option V
  output : Option V
  task : Option String

/-- The session-relevant constructor arguments of the `TraceContext` built
by `Session.trace`. -/
structure TraceCtxInit (V : Type) where
  sequenceNumber : Nat
  conversationHistory : Option (List (ConversationTurnM V))

/-- The mutable state of a `Session`: the `seq` counter and the history
buffer. -/
structure SessionState (V : Type) where
  seq : Nat
  history : List (ConversationTurnM V)

/-- The context `Session.trace` constructs: `sequenceNumber = this.seq` and
`conversationHistory = history.length > 0 ? history.slice(-windowSize) :
undefined`. -/
def ctxInitOf {V : Type} (w : Nat) (s : SessionState V) : TraceCtxInit V :=
  { sequenceNumber := s.seq,
    conversationHistory :=
      if s.history.length > 0 then some (sliceNeg w s.history) else none }

/-- Embeds `Session.trace`: builds the context, runs the orchestrator's processing
(`proc`, which may throw), and only on success increments `seq`, appends the
turn, and truncates the history to the window.  A thrown error propagates
before any state mutation, so the state is returned unchanged. -/
def sessionTrace {V E R : Type} (w : Nat) (s : SessionState V) (d : TraceData V)
    (proc : TraceCtxInit V → Except E R) : Except E R × SessionState V :=
  match proc (ctxInitOf w s) with
  | .error err => (.error err, s)
  | .ok r =>
    (.ok r, ⟨s.seq + 1,
      truncateHistory w (s.history ++ [⟨s.seq, d.input, d.output, d.task⟩])⟩)

/-- Runs `n` successfully completed traces on a fresh session, turn `k` carrying
the data `f k`. -/
def sessionRun {V : Type} (w : Nat) (f : Nat → TraceData V) : Nat → SessionState V
  | 0 => ⟨0, []⟩
  | n + 1 =>
    (sessionTrace w (sessionRun w f n) (f n)
      (fun _ => (Except.ok () : Except Unit Unit))).2

/-- The turn that trace `k` appends. -/
def turnOf {V : Type} (f : Nat → TraceData V) (k : Nat) : ConversationTurnM V :=
  ⟨k, (f k).input, (f k).output, (f k).task⟩

theorem sessionRun_state {V : Type} (w : Nat) (hw : 1 ≤ w) (f : Nat → TraceData V) (n : Nat) :
    (sessionRun w f n).seq = n ∧
    (sessionRun w f n).history = ((List.range n).map (turnOf f)).drop (n - w) := by
  induction n with
  | zero => exact ⟨rfl, by simp [sessionRun]⟩
  | succ n ih =>
    obtain ⟨hseq, hhist⟩ := ih
    have hT : (((List.range n).map (turnOf f))).length = n := by simp
    have hsucc : ((List.range (n + 1)).map (turnOf f)) =
        ((List.range n).map (turnOf f)) ++ [turnOf f n] := by
      rw [List.range_succ, List.map_append]
      rfl
    constructor
    · show (sessionTrace w (sessionRun w f n) (f n) _).2.seq = n + 1
      rw [sessionTrace]
      dsimp only
      rw [hseq]
    · show (sessionTrace w (sessionRun w f n) (f n) _).2.history = _
      rw [sessionTrace]
      dsimp only
      have hturn : (⟨(sessionRun w f n).seq, (f n).input, (f n).output, (f n).task⟩ :
          ConversationTurnM V) = turnOf f n := by
        rw [turnOf, hseq]
      rw [hturn, hhist, hsucc]
      by_cases hc : n < w
      · have h0 : n - w = 0 := by omega
        have h1 : n + 1 - w = 0 := by omega
        rw [h0, h1, List.drop_zero, List.drop_zero, truncateHistory,
          if_neg (by
            simp only [List.length_append, List.length_cons, List.length_nil, hT]
            omega)]
      · have hlen : ((((List.range n).map (turnOf f))).drop (n - w)).length = w := by
          rw [List.length_drop, hT]
          omega
        have hlen2 : ((((List.range n).map (turnOf f))).drop (n - w) ++
            [turnOf f n]).length = w + 1 := by
          simp only [List.length_append, List.length_cons, List.length_nil, hlen]
        rw [truncateHistory, if_pos (by rw [hlen2]; omega), sliceNeg,
          if_neg (show ¬ w = 0 by omega), hlen2,
          (show w + 1 - w = 1 by omega),
          List.drop_append_of_le_length (by rw [hlen]; omega),
          List.drop_drop,
          List.drop_append_of_le_length (by rw [hT]; omega),
          (show n - w + 1 = n + 1 - w by omega)]

theorem turnOf_seq {V : Type} (f : Nat → TraceData V) (k : Nat) :
    (turnOf f k).sequenceNumber = k := rfl

/-- C5 (amended: window size at least 1): after `n` completed traces the
sequence counter is `n`; the history snapshot passed into the context of
turn `n` is absent for `n = 0` and otherwise holds exactly `min n w` prior
turns, oldest first, with contiguous sequence numbers from `n - min n w`
(that is, `[n - w, n)` clipped at 0); sequence numbers start at 0 and are
never reused. -/
theorem session_window_invariant {V : Type} (w : Nat) (hw : 1 ≤ w)
    (f : Nat → TraceData V) (n : Nat) :
    (sessionRun w f n).seq = n ∧
    (ctxInitOf w (sessionRun w f n)).sequenceNumber = n ∧
    (ctxInitOf w (sessionRun w f n)).conversationHistory =
      (if n = 0 then none
       else some (((List.range n).map (turnOf f)).drop (n - w))) ∧
    (((List.range n).map (turnOf f)).drop (n - w)).length = min n w ∧
    (∀ i (hi : i < (((List.range n).map (turnOf f)).drop (n - w)).length),
      ((((List.range n).map (turnOf f)).drop (n - w)).get ⟨i, hi⟩).sequenceNumber =
        n - min n w + i) := by
  obtain ⟨hseq, hhist⟩ := sessionRun_state w hw f n
  have hT : (((List.range n).map (turnOf f))).length = n := by simp
  have hlen : ((((List.range n).map (turnOf f))).drop (n - w)).length = min n w := by
    rw [List.length_drop, hT]
    omega
  refine ⟨hseq, ?_, ?_, hlen, ?_⟩
  · show (sessionRun w f n).seq = n
    exact hseq
  · show (if (sessionRun w f n).history.length > 0
        then some (sliceNeg w (sessionRun w f n).history) else none) = _
    rw [hhist, hlen]
    by_cases hn : n = 0
    · rw [if_neg (by omega), if_pos hn]
    · rw [if_pos (by omega), if_neg hn, sliceNeg, if_neg (by omega), hlen,
        (show min n w - w = 0 by omega), List.drop_zero]
  · intro i hi
    rw [List.get_eq_getElem]
    simp only [List.getElem_drop, List.getElem_map, List.getElem_range]
    rw [turnOf_seq]
    rw [hlen] at hi
    omega

/-- Sample per-turn data for concrete session runs. -/
def sampleTraceData : Nat → TraceData Nat := fun k => ⟨some k, some (k + 1), none⟩

/-- Counterexample to C5 as stated: with `conversationWindowSize = 0`, JS
`history.slice(-0)` returns the whole history, so the snapshot passed to
turn 1 holds 1 turn where the claim requires `min(1, 0) = 0`. -/
theorem session_window_zero_counterexample :
    ¬ (((ctxInitOf 0 (sessionRun 0 sampleTraceData 1)).conversationHistory.getD []).length =
        min 1 0) := by decide

/-- Witness for C5 at `w = 2`, `n = 3`. -/
theorem session_window_invariant_witness :
    (sessionRun 2 sampleTraceData 3).seq = 3 ∧
    (ctxInitOf 2 (sessionRun 2 sampleTraceData 3)).conversationHistory =
      (if 3 = 0 then none
       else some (((List.range 3).map (turnOf sampleTraceData)).drop (3 - 2))) ∧
    (((List.range 3).map (turnOf sampleTraceData)).drop (3 - 2)).length = min 3 2 :=
  ⟨(session_window_invariant 2 (by decide) sampleTraceData 3).1,
   (session_window_invariant 2 (by decide) sampleTraceData 3).2.2.1,
   (session_window_invariant 2 (by decide) sampleTraceData 3).2.2.2.1⟩

/-- C10: when the orchestrator's processing of a session trace throws, the
error propagates from `Session.trace` with the session state unchanged —
`seq` is not incremented and no turn is appended — and the context of the
next trace carries the same sequence number again. -/
theorem sessionTrace_error_frame {V E R : Type} (w : Nat) (s : SessionState V)
    (d : TraceData V) (proc : TraceCtxInit V → Except E R) (err : E)
    (h : proc (ctxInitOf w s) = .error err) :
    sessionTrace w s d proc = (.error err, s) ∧
    (ctxInitOf w s).sequenceNumber = s.seq := by
  refine ⟨?_, rfl⟩
  rw [sessionTrace, h]

/-- Witness for C10: a processing error at sequence 1 leaves the state (and
future sequence numbers) untouched. -/
theorem sessionTrace_error_frame_witness :
    sessionTrace 5 (⟨1, [⟨0, some 9, some 9, none⟩]⟩ : SessionState Nat)
        ⟨some 1, some 2, none⟩ (fun _ => (Except.error 42 : Except Nat Unit)) =
      (.error 42, ⟨1, [⟨0, some 9, some 9, none⟩]⟩) ∧
    (ctxInitOf 5 (⟨1, [⟨0, some 9, some 9, none⟩]⟩ : SessionState Nat)).sequenceNumber = 1 :=
  sessionTrace_error_frame 5 _ _ _ 42 rfl

/-! ## Trace context (`src/trace.ts`, `src/models.ts`) -/

/-- A JS value as `TraceContext.step` distinguishes them: a string (passed
through raw) or any other value, identified by its `JSON.stringify` image. -/
inductive JsVal where
  | str (s : String) : JsVal
  | other (json : String) : JsVal

/-- Embeds `typeof x === 'string' ? x : JSON.stringify(x ?? '')`: a string is kept
raw, another value becomes its JSON serialization, and an absent value
becomes `JSON.stringify('')`, the two-character string `""`. -/
def serializeStepArg : Option JsVal → String
  | some (.str s) => s
  | some (.other j) => j
  | none => "\"\""

/-- Embeds `StepRecord` from `src/models.ts`: exactly the four fields of the
interface. -/
structure StepRecord where
  stepName : String
  input : String
  output : String
  timestamp : String
deriving DecidableEq

/-- Embeds `createStepRecord` from `src/models.ts`: `timestamp: opts.timestamp ??
new Date().toISOString()`, with the clock value passed in as `nowIso`. -/
def createStepRecord (stepName input output : String) (timestamp : Option String)
    (nowIso : String) : StepRecord :=
  ⟨stepName, input, output, timestamp.getD nowIso⟩

/-- The record built by `TraceContext.step`: display name `type:name`,
serialized input/output, and `timestamp: durationMs !== undefined ?
durationMs + 'ms' : undefined` — so a supplied duration lands in the
timestamp slot and suppresses the creation timestamp. -/
def stepDescriptorRecord (type name : String) (input output : Option JsVal)
    (durationMs : Option Nat) (nowIso : String) : StepRecord :=
  createStepRecord (type ++ ":" ++ name) (serializeStepArg input) (serializeStepArg output)
    (durationMs.map (fun d => toString d ++ "ms")) nowIso

/-- Embeds `TraceContext.step`: appends the new record to `this.steps`. -/
def stepOp (steps : List StepRecord) (type name : String) (input output : Option JsVal)
    (durationMs : Option Nat) (nowIso : String) : List StepRecord :=
  steps ++ [stepDescriptorRecord type name input output durationMs nowIso]

/-- Counterexample to C8 as stated: with `durationMs = 150` the appended
record does not carry the creation timestamp — its single `timestamp` field
holds `"150ms"` instead. -/
theorem step_duration_displaces_timestamp :
    ¬ ((stepDescriptorRecord "tool" "search" (some (.str "q")) (some (.str "r"))
        (some 150) "2026-01-01T00:00:00Z").timestamp = "2026-01-01T00:00:00Z") := by
  decide

/-- C8 (amended): every `step` call appends a record with display name
`type:name`, the raw string for string input/output and the serialized form
for non-string values, and a single `timestamp` field holding
`durationMs + "ms"` when a duration was supplied and the creation timestamp
otherwise; the append never alters previously recorded steps. -/
theorem step_record_fields (type name : String) (input output : Option JsVal)
    (durationMs : Option Nat) (nowIso : String) (steps : List StepRecord) :
    (stepDescriptorRecord type name input output durationMs nowIso).stepName =
      type ++ ":" ++ name ∧
    (∀ s, input = some (.str s) →
      (stepDescriptorRecord type name input output durationMs nowIso).input = s) ∧
    (∀ j, input = some (.other j) →
      (stepDescriptorRecord type name input output durationMs nowIso).input = j) ∧
    (∀ s, output = some (.str s) →
      (stepDescriptorRecord type name input output durationMs nowIso).output = s) ∧
    (∀ j, output = some (.other j) →
      (stepDescriptorRecord type name input output durationMs nowIso).output = j) ∧
    (stepDescriptorRecord type name input output durationMs nowIso).timestamp =
      (match durationMs with
       | some d => toString d ++ "ms"
       | none => nowIso) ∧
    stepOp steps type name input output durationMs nowIso =
      steps ++ [stepDescriptorRecord type name input output durationMs nowIso] ∧
    (stepOp steps type name input output durationMs nowIso).take steps.length = steps := by
  refine ⟨rfl, ?_, ?_, ?_, ?_, ?_, rfl, List.take_left steps _⟩
  · intro s hs
    rw [stepDescriptorRecord, createStepRecord, hs]
    rfl
  · intro j hj
    rw [stepDescriptorRecord, createStepRecord, hj]
    rfl
  · intro s hs
    rw [stepDescriptorRecord, createStepRecord, hs]
    rfl
  · intro j hj
    rw [stepDescriptorRecord, createStepRecord, hj]
    rfl
  · cases durationMs with
    | none => rfl
    | some d => rfl

/-- Witness for C8: a step with a 150ms duration and mixed string/non-string
arguments. -/
theorem step_record_fields_witness :
    (stepDescriptorRecord "tool" "search" (some (.str "q")) (some (.other "[1]"))
        (some 150) "t0").stepName = "tool" ++ ":" ++ "search" ∧
    (stepDescriptorRecord "tool" "search" (some (.str "q")) (some (.other "[1]"))
        (some 150) "t0").input = "q" ∧
    (stepDescriptorRecord "tool" "search" (some (.str "q")) (some (.other "[1]"))
        (some 150) "t0").output = "[1]" ∧
    (stepDescriptorRecord "tool" "search" (some (.str "q")) (some (.other "[1]"))
        (some 150) "t0").timestamp =
      (match (some 150 : Option Nat) with
       | some d => toString d ++ "ms"
       | none => "t0") := by
  have h := step_record_fields "tool" "search" (some (.str "q")) (some (.other "[1]"))
    (some 150) "t0" []
  exact ⟨h.1, h.2.1 "q" rfl, h.2.2.2.2.1 "[1]" rfl, h.2.2.2.2.2.1⟩

/-- The reference identity of a `TraceContext`'s mutable parts: the address
of its `steps` array and its `metadata` object (allocated at construction
and never replaced — `step` pushes in place and `setMetadata` assigns in
place), plus `startTime = performance.now()` at construction. -/
structure TraceCtxRef where
  stepsAddr : Nat
  metaAddr : Nat
  startTime : Nat

/-- The mutable store: step arrays and metadata objects by address.  `V` is
the type of metadata values. -/
structure Heap (V : Type) where
  stepArrays : List (List StepRecord)
  metaObjects : List (List (String × V))

/-- Embeds `this.metadata[key] = value` on a JS object kept as an insertion-ordered
association list: an existing key is updated in place, a new key appends. -/
def upsert {V : Type} : List (String × V) → String → V → List (String × V)
  | [], k, v => [(k, v)]
  | (k0, v0) :: rest, k, v =>
    if k0 = k then (k0, v) :: rest else (k0, v0) :: upsert rest k v

/-- Embeds `TraceContext.step` as a store mutation: pushes the new record onto the
context's steps array, in place. -/
def ctxStep {V : Type} (h : Heap V) (ctx : TraceCtxRef) (type name : String)
    (input output : Option JsVal) (durationMs : Option Nat) (nowIso : String) : Heap V :=
  let arr := stepOp (h.stepArrays.getD ctx.stepsAddr []) type name input output durationMs nowIso
  { h with stepArrays := h.stepArrays.set ctx.stepsAddr arr }

/-- Embeds `TraceContext.setMetadata` as a store mutation. -/
def ctxSetMetadata {V : Type} (h : Heap V) (ctx : TraceCtxRef) (k : String) (v : V) :
    Heap V :=
  let obj := upsert (h.metaObjects.getD ctx.metaAddr []) k v
  { h with metaObjects := h.metaObjects.set ctx.metaAddr obj }

/-- The parts of the built `ExecutionEvent` at issue: `buildEvent` passes
`steps: this.steps` and `metadata: this.metadata` — the references
themselves, not copies — together with a fresh `executionId` (`randomUUID()`
when absent) and `latencyMs: performance.now() - this.startTime`. -/
structure BuiltEvent where
  executionId : String
  stepsRef : Nat
  metadataRef : Nat
  latencyMs : Nat

/-- Embeds `TraceContext.buildEvent` at clock value `now`, with `freshId` the id
`createExecutionEvent` generates for this call. -/
def buildEvent (ctx : TraceCtxRef) (now : Nat) (freshId : String) : BuiltEvent :=
  ⟨freshId, ctx.stepsAddr, ctx.metaAddr, now - ctx.startTime⟩

/-- Reading `event.steps` under the store: dereference the shared array. -/
def eventSteps {V : Type} (h : Heap V) (e : BuiltEvent) : List StepRecord :=
  h.stepArrays.getD e.stepsRef []

/-- Reading `event.metadata` under the store. -/
def eventMetadata {V : Type} (h : Heap V) (e : BuiltEvent) : List (String × V) :=
  h.metaObjects.getD e.metadataRef []

/-- A fresh context's store: one empty steps array and one empty metadata
object at address 0. -/
def c7heap0 : Heap Nat := ⟨[[]], [[]]⟩

/-- The context owning both address-0 cells, constructed at time 0. -/
def c7ctx : TraceCtxRef := ⟨0, 0, 0⟩

/-- The store after one `step` call. -/
def c7heap1 : Heap Nat := ctxStep c7heap0 c7ctx "llm" "a" none none none "t0"

/-- The event built after the first step, at clock 5. -/
def c7event : BuiltEvent := buildEvent c7ctx 5 "id1"

/-- The store after a second `step` call, made after `buildEvent`. -/
def c7heap2 : Heap Nat := ctxStep c7heap1 c7ctx "llm" "b" none none none "t1"

/-- Counterexample to C7 as stated: a `step` call made after `buildEvent` is
observable through the previously returned event — `event.steps` grows from
one record to two, because `buildEvent` passes the context's `steps` array
by reference. -/
theorem buildEvent_not_independent :
    ¬ (eventSteps c7heap2 c7event = eventSteps c7heap1 c7event) := by decide

/-- C7 (amended): `buildEvent` may be called multiple times; each call
returns a new event that recomputes `latencyMs` from the context's
construction time and reuses the accumulated state — but it shares the
context's `steps` array and `metadata` object by reference, so context
mutations after `buildEvent` remain observable through the returned event:
a later `step` appends to the event's steps and a later `setMetadata`
updates the event's metadata. -/
theorem buildEvent_shares_state {V : Type} (ctx : TraceCtxRef) (h : Heap V)
    (now1 now2 : Nat) (id1 id2 : String)
    (hs : ctx.stepsAddr < h.stepArrays.length)
    (hm : ctx.metaAddr < h.metaObjects.length) :
    (buildEvent ctx now1 id1).stepsRef = ctx.stepsAddr ∧
    (buildEvent ctx now1 id1).metadataRef = ctx.metaAddr ∧
    (buildEvent ctx now1 id1).latencyMs = now1 - ctx.startTime ∧
    (buildEvent ctx now2 id2).stepsRef = (buildEvent ctx now1 id1).stepsRef ∧
    (buildEvent ctx now2 id2).metadataRef = (buildEvent ctx now1 id1).metadataRef ∧
    (buildEvent ctx now2 id2).latencyMs = now2 - ctx.startTime ∧
    (∀ type name input output durationMs nowIso,
      eventSteps (ctxStep h ctx type name input output durationMs nowIso)
          (buildEvent ctx now1 id1) =
        eventSteps h (buildEvent ctx now1 id1) ++
          [stepDescriptorRecord type name input output durationMs nowIso]) ∧
    (∀ k v,
      eventMetadata (ctxSetMetadata h ctx k v) (buildEvent ctx now1 id1) =
        upsert (eventMetadata h (buildEvent ctx now1 id1)) k v) := by
  refine ⟨rfl, rfl, rfl, rfl, rfl, rfl, ?_, ?_⟩
  · intro type name input output durationMs nowIso
    show (h.stepArrays.set ctx.stepsAddr _).getD ctx.stepsAddr [] = _
    rw [List.getD_eq_getElem?_getD, List.getElem?_set_self hs]
    rfl
  · intro k v
    show (h.metaObjects.set ctx.metaAddr _).getD ctx.metaAddr [] = _
    rw [List.getD_eq_getElem?_getD, List.getElem?_set_self hm]
    rfl

/-- Witness for C7 at the concrete single-context store. -/
theorem buildEvent_shares_state_witness :
    (buildEvent c7ctx 5 "id1").latencyMs = 5 - c7ctx.startTime ∧
    eventSteps (ctxStep c7heap1 c7ctx "llm" "b" none none none "t1")
        (buildEvent c7ctx 5 "id1") =
      eventSteps c7heap1 (buildEvent c7ctx 5 "id1") ++
        [stepDescriptorRecord "llm" "b" none none none "t1"] ∧
    eventMetadata (ctxSetMetadata c7heap1 c7ctx "model" 4) (buildEvent c7ctx 5 "id1") =
      upsert (eventMetadata c7heap1 (buildEvent c7ctx 5 "id1")) "model" 4 := by
  have h := buildEvent_shares_state c7ctx c7heap1 5 6 "id1" "id2" (by decide) (by decide)
  exact ⟨h.2.2.1, h.2.2.2.2.2.2.1 "llm" "b" none none none "t1", h.2.2.2.2.2.2.2 "model" 4⟩
